import Mathlib

/-!
Verification of the SOP scoring engine and readability optimization loop of
`pages/pages/user_dashboard.py` (functions `_flesch`, `_gunning_fog`,
`_normalize_fraction`, `_score_from_range`, `_bullet_count`, `_passive_count`,
`_all_caps_sections`, `score_sop_pdf_metrics`, `build_pdf_matrix`,
`readability_scores`, `generate_optimized_sop`).

Texts are modelled as `String` / `List Char`; Python floats are modelled as
rationals (`ℚ`); Python `Optional[str]` as `Option String`.  Regex character
classes `\w` and `\s` are modelled by ASCII alphanumerics/underscore and the
ASCII whitespace characters recognized by `Char.isWhitespace`, which agree
with Python on all text occurring in the claims.
-/

/-- The regex class `\w`: word characters (ASCII letters, digits, underscore). -/
def isWordChar (c : Char) : Bool := c.isAlphanum || c = '_'

/-- Sentence terminators, the regex class `[.!?]` used by the sentence split. -/
def isSentEnd (c : Char) : Bool := c = '.' || c = '!' || c = '?'

/-- Case-insensitive test that `kw` is an initial segment of `t`
(regex literal matching under `re.I`). -/
def lcStarts : List Char → List Char → Bool
  | [], _ => true
  | _ :: _, [] => false
  | k :: ks, c :: cs => (k.toLower = c.toLower) && lcStarts ks cs

/-- Case-insensitive substring search: `re.search(re.escape(kw), t, re.I)`
for a literal keyword `kw`. -/
def lcSubstring (kw : List Char) : List Char → Bool
  | [] => kw.isEmpty
  | c :: cs => lcStarts kw (c :: cs) || lcSubstring kw cs

/-- After a candidate match of `kw` at the head of `t`, the closing `\b`:
the next character (if any) is not a word character.  (All keywords this is
used with end in a word character.) -/
def boundaryAfter (kw t : List Char) : Bool :=
  match t.drop kw.length with
  | [] => true
  | c :: _ => !isWordChar c

/-- Scanner for `re.search(rf"\b{re.escape(kw)}\b", t, re.I)` for a keyword
that begins and ends with word characters (every structure section name does):
a match starts where the previous character is not a word character and is
followed, after the keyword, by a non-word character or the end of the text.
`prevWord` records whether the character before the current position is a
word character. -/
def wwScan (kw : List Char) : Bool → List Char → Bool
  | _, [] => false
  | prevWord, c :: cs =>
    (!prevWord && lcStarts kw (c :: cs) && boundaryAfter kw (c :: cs)) ||
      wwScan kw (isWordChar c) cs

/-- Whole-word case-insensitive search over a string, starting at the
beginning of the text (no preceding character). -/
def wwSearch (kw t : String) : Bool := wwScan kw.data false t.data

/-- Maximal runs of characters satisfying `p`; `cur` is the reversed run
currently being collected. -/
def runsGo (p : Char → Bool) (cur : List Char) : List Char → List (List Char)
  | [] => if cur.isEmpty then [] else [cur.reverse]
  | c :: cs =>
    if p c then runsGo p (c :: cur) cs
    else if cur.isEmpty then runsGo p [] cs
    else cur.reverse :: runsGo p [] cs

/-- Maximal runs of characters satisfying `p` in a text. -/
def runs (p : Char → Bool) (t : List Char) : List (List Char) := runsGo p [] t

/-- `re.findall(r'\w+', text)`: the list of maximal word-character runs. -/
def wordList (t : List Char) : List (List Char) := runs isWordChar t

/-- Character-wise split of `t` at sentence terminators.  `re.split(r'[.!?]+',
text)` splits at maximal terminator runs; splitting at every terminator
character instead only inserts extra empty pieces, all of which are removed
by the blank filter in `sentList`, so the filtered results coincide. -/
def splitSents : List Char → List (List Char)
  | [] => [[]]
  | c :: cs =>
    if isSentEnd c then [] :: splitSents cs
    else
      match splitSents cs with
      | [] => [[c]]
      | p :: ps => (c :: p) :: ps

/-- `[s for s in re.split(r'[.!?]+', text) if s.strip()]`: the split pieces
that contain a non-whitespace character. -/
def sentList (t : List Char) : List (List Char) :=
  (splitSents t).filter (fun s => s.any (fun c => !c.isWhitespace))

/-- Is the character before the current position a word character?
(`none` means start of text.) -/
def prevIsWord : Option Char → Bool
  | none => false
  | some c => isWordChar c

/-- `(?m)^`: the current position is the start of a line. -/
def lineStart : Option Char → Bool
  | none => true
  | some c => c = '\n'

/-- Case-sensitive test that `kw` is an initial segment of `t`
(regex literal matching without `re.I`). -/
def litStarts : List Char → List Char → Bool
  | [], _ => true
  | _ :: _, [] => false
  | k :: ks, c :: cs => (k = c) && litStarts ks cs

/-- Generic `re.findall` counter: scan left to right; at each position try the
matcher (which is given the previous character for anchors); a match is
counted and the scan resumes after its end (non-overlapping), otherwise the
scan advances one character.  `skip` is the number of upcoming positions that
lie inside an already-counted match and therefore are not tried.  All
matchers used here consume at least one character; a zero-length answer is
treated as no match. -/
def scanGo (f : Option Char → List Char → Option ℕ) :
    ℕ → Option Char → List Char → ℕ
  | _, _, [] => 0
  | n + 1, _, c :: cs => scanGo f n (some c) cs
  | 0, prev, c :: cs =>
    match f prev (c :: cs) with
    | some n => if 0 < n then 1 + scanGo f (n - 1) (some c) cs
                else scanGo f 0 (some c) cs
    | none => scanGo f 0 (some c) cs

/-- Count of non-overlapping matches of `f` in `t`, scanning from the start. -/
def scanCount (f : Option Char → List Char → Option ℕ) (prev : Option Char)
    (t : List Char) : ℕ := scanGo f 0 prev t

/-- Matcher for `\bVersion\s*\d+\b` (case-sensitive, as in the source): a
preceding non-word character, the literal `Version`, any whitespace, at least
one digit (greedily all of them), and a closing word boundary. -/
def versionMatchLen (prev : Option Char) (t : List Char) : Option ℕ :=
  if prevIsWord prev then none
  else if litStarts "Version".data t then
    let rest := t.drop 7
    let ws := rest.takeWhile (fun c => c.isWhitespace)
    let rest2 := rest.drop ws.length
    let ds := rest2.takeWhile (fun c => c.isDigit)
    if ds.isEmpty then none
    else
      match rest2.drop ds.length with
      | [] => some (7 + ws.length + ds.length)
      | c :: _ => if isWordChar c then none else some (7 + ws.length + ds.length)
  else none

/-- Matcher for `\b\d{2}/\d{2}/\d{4}\b`: a preceding non-word character, the
literal shape `dd/dd/dddd`, and a closing word boundary. -/
def dateMatchLen (prev : Option Char) (t : List Char) : Option ℕ :=
  if prevIsWord prev then none
  else
    match t with
    | d1 :: d2 :: s1 :: d3 :: d4 :: s2 :: d5 :: d6 :: d7 :: d8 :: rest =>
      if d1.isDigit && d2.isDigit && s1 = '/' && d3.isDigit && d4.isDigit &&
          s2 = '/' && d5.isDigit && d6.isDigit && d7.isDigit && d8.isDigit &&
          (match rest with | [] => true | c :: _ => !isWordChar c)
      then some 10 else none
    | _ => none

/-- `trace_hits`: total count of matches of the two traceability patterns,
`sum(len(re.findall(pat, text_lc)) for pat in traceability_terms)`. -/
def traceHits (t : List Char) : ℕ :=
  scanCount versionMatchLen none t + scanCount dateMatchLen none t

/-- Does a word-character run end in `ed` (case-insensitively)? -/
def endsWithEd (run : List Char) : Bool :=
  match run.reverse with
  | d :: e :: _ => (d.toLower = 'd') && (e.toLower = 'e')
  | _ => false

/-- One alternative of the passive-voice pattern: the auxiliary `a` (matched
case-insensitively), then `\s+`, then `\w+ed\b`.  With a greedy `\w+` and the
closing `\b`, the word after the spaces matches exactly when the maximal
word run there has length at least 3 and ends in `ed`. -/
def passiveOne (a t : List Char) : Option ℕ :=
  if lcStarts a t then
    let rest := t.drop a.length
    let ws := rest.takeWhile (fun c => c.isWhitespace)
    if ws.isEmpty then none
    else
      let rest2 := rest.drop ws.length
      let run := rest2.takeWhile isWordChar
      if 3 ≤ run.length && endsWithEd run then
        some (a.length + ws.length + run.length)
      else none
  else none

/-- The alternation `(?:is|are|was|were|be|been|being)`, tried in order. -/
def passiveTry : List String → List Char → Option ℕ
  | [], _ => none
  | a :: as, t =>
    match passiveOne a.data t with
    | some n => some n
    | none => passiveTry as t

/-- Matcher for `\b(?:is|are|was|were|be|been|being)\s+\w+ed\b` under `re.I`. -/
def passiveMatchLen (prev : Option Char) (t : List Char) : Option ℕ :=
  if prevIsWord prev then none
  else passiveTry ["is", "are", "was", "were", "be", "been", "being"] t

/-- `_passive_count`. -/
def passiveCount (t : List Char) : ℕ := scanCount passiveMatchLen none t

/-- Matcher for one bullet line, `(?m)^\s*(?:[-*•]|\d+[.)])\s+`: at a line
start, any whitespace, a bullet marker or a (greedy) digit run followed by
`.` or `)`, then at least one whitespace character. -/
def bulletMatchLen (prev : Option Char) (t : List Char) : Option ℕ :=
  if !lineStart prev then none
  else
    let ws := t.takeWhile (fun c => c.isWhitespace)
    let rest := t.drop ws.length
    let headLen : Option ℕ :=
      match rest with
      | c :: _ =>
        if c = '-' || c = '*' || c = '•' then some 1
        else
          let ds := rest.takeWhile (fun c => c.isDigit)
          if ds.isEmpty then none
          else
            match rest.drop ds.length with
            | c' :: _ => if c' = '.' || c' = ')' then some (ds.length + 1) else none
            | [] => none
      | [] => none
    match headLen with
    | none => none
    | some h =>
      let rest2 := rest.drop h
      let ws2 := rest2.takeWhile (fun c => c.isWhitespace)
      if ws2.isEmpty then none else some (ws.length + h + ws2.length)

/-- `_bullet_count`. -/
def bulletCount (t : List Char) : ℕ := scanCount bulletMatchLen none t

/-- `(?m)$`: end of text or just before a newline. -/
def eolAt : List Char → Bool
  | [] => true
  | c :: _ => c = '\n'

/-- The trailing `\s*$` of the all-caps pattern: greedily the longest
whitespace run after which a line ends. -/
def capsJ (rest2 : List Char) : Option ℕ :=
  let ws2 := rest2.takeWhile (fun c => c.isWhitespace)
  (List.range (ws2.length + 1)).reverse.find? (fun j => eolAt (rest2.drop j))

/-- Backtracking over the greedy `[A-Z ]{3,}`: try the longest prefix of the
maximal `[A-Z ]` run first, shrinking down to 3 characters. -/
def capsSearchK (rest1 : List Char) : ℕ → Option ℕ
  | 0 => none
  | k + 1 =>
    if k + 1 < 3 then none
    else
      match capsJ (rest1.drop (k + 1)) with
      | some j => some (k + 1 + j)
      | none => capsSearchK rest1 k

/-- Matcher for `(?m)^\s*[A-Z][A-Z ]{3,}\s*$`: at a line start, any
whitespace, a capital letter, at least 3 further capitals/spaces, optional
whitespace, then a line end. -/
def capsMatchLen (prev : Option Char) (t : List Char) : Option ℕ :=
  if !lineStart prev then none
  else
    let ws := t.takeWhile (fun c => c.isWhitespace)
    let rest := t.drop ws.length
    match rest with
    | c0 :: rest1 =>
      if c0.isUpper then
        let run := rest1.takeWhile (fun c => c.isUpper || c = ' ')
        match capsSearchK rest1 run.length with
        | some kj => some (ws.length + 1 + kj)
        | none => none
      else none
    | [] => none

/-- `_all_caps_sections`. -/
def allCapsCount (t : List Char) : ℕ := scanCount capsMatchLen none t

/-- The fixed list of expected SOP section names (`structure_sections`). -/
def structure_sections : List String :=
  ["Title", "Purpose", "Scope", "Responsibilities", "Definitions",
   "References", "Procedure", "Safety", "Training", "Change Control",
   "Records", "Documentation", "Revision History", "Materials",
   "Equipment", "Stepwise"]

/-- The fixed list of regulatory citation tokens (`regulatory_terms`). -/
def regulatory_terms : List String :=
  ["21 CFR 210", "21 CFR 211", "21 CFR 11", "ICH", "EU GMP",
   "WHO GMP", "cGMP", "GMP", "PIC/S"]

/-- The fixed list of safety vocabulary terms (`safety_terms`). -/
def safety_terms : List String :=
  ["risk", "hazard", "PPE", "incident", "deviation", "CAPA",
   "spill", "lockout", "tagout", "exposure", "MSDS", "first aid"]

/-- The fixed list of generic compliance terms (`compliance_terms`). -/
def compliance_terms : List String :=
  ["compliance", "audit", "regulatory", "requirement", "standard"]

/-- The thirteen metric names of the PDF-style rubric, the keys of
`weights_pdf` and `ranges_pdf`. -/
inductive MetricName where
  | Structure
  | RegulatoryCompliance
  | SafetyRiskCoverage
  | ComplianceKeywordsCoverage
  | TraceabilityVersionControl
  | TechnicalAccuracy
  | FleschReadingEase
  | GunningFogIndex
  | AvgSentenceLength
  | LongSentencesCount
  | PassiveVoiceCount
  | BulletNumberingUsage
  | AllCapsSectionCount
deriving DecidableEq

/-- The metric names in the order of the source dictionaries. -/
def metricNames : List MetricName :=
  [.Structure, .RegulatoryCompliance, .SafetyRiskCoverage,
   .ComplianceKeywordsCoverage, .TraceabilityVersionControl,
   .TechnicalAccuracy, .FleschReadingEase, .GunningFogIndex,
   .AvgSentenceLength, .LongSentencesCount, .PassiveVoiceCount,
   .BulletNumberingUsage, .AllCapsSectionCount]

/-- The fixed importance weights (`weights_pdf`). -/
def weights_pdf : MetricName → ℚ
  | .Structure => 10
  | .RegulatoryCompliance => 15
  | .SafetyRiskCoverage => 10
  | .ComplianceKeywordsCoverage => 10
  | .TraceabilityVersionControl => 10
  | .TechnicalAccuracy => 10
  | .FleschReadingEase => 5
  | .GunningFogIndex => 5
  | .AvgSentenceLength => 5
  | .LongSentencesCount => 5
  | .PassiveVoiceCount => 5
  | .BulletNumberingUsage => 5
  | .AllCapsSectionCount => 5

/-- A `ranges_pdf` entry: a `(good, warn)` pair, or a `(good, warn, mode)`
triple whose mode is a string tag, exactly as the Python tuples. -/
inductive RangeSpec where
  | pair (good warn : ℚ)
  | triple (good warn : ℚ) (mode : String)
deriving DecidableEq

/-- The per-metric target/threshold table (`ranges_pdf`). -/
def ranges_pdf : MetricName → RangeSpec
  | .Structure => .pair 1 0.5
  | .RegulatoryCompliance => .pair 1 0.5
  | .SafetyRiskCoverage => .pair 1 0.5
  | .ComplianceKeywordsCoverage => .pair 1 0.5
  | .TraceabilityVersionControl => .pair 1 0.5
  | .TechnicalAccuracy => .pair 1 0.5
  | .FleschReadingEase => .pair 60 40
  | .GunningFogIndex => .triple 12 15 "low_better"
  | .AvgSentenceLength => .triple 20 25 "low_better"
  | .LongSentencesCount => .triple 5 10 "low_better"
  | .PassiveVoiceCount => .triple 5 10 "low_better"
  | .BulletNumberingUsage => .pair 1 0.5
  | .AllCapsSectionCount => .triple 0 2 "low_better"

/-- `_normalize_fraction(count, total)`:
`min(1.0, count / max(1, total)) if total else 0.0`. -/
def normalizeFraction (count total : ℕ) : ℚ :=
  if total ≠ 0 then min 1 ((count : ℚ) / ((max 1 total : ℕ) : ℚ)) else 0

/-- `_score_from_range(name, value)`: normalize one raw metric value into a
sub-score using `ranges_pdf`. -/
def scoreFromRange (name : MetricName) (value : ℚ) : ℚ :=
  match ranges_pdf name with
  | .pair good warn =>
    if good = 1 ∧ warn = 0.5 then max 0 (min 1 value)
    else if value ≥ good then 1
    else if value ≤ warn then 0
    else (value - warn) / (good - warn)
  | .triple good warn mode =>
    if mode = "low_better" then
      if value ≤ good then 1
      else if value ≥ warn then 0
      else 1 - (value - good) / (warn - good)
    else
      if value ≥ good then 1
      else if value ≤ warn then 0
      else (value - warn) / (good - warn)

/-- `_flesch(text)`, the built-in approximate fallback (the optional external
readability library is modelled as unavailable, as in §4.2 of the design):
`max(0.0, 100 - (wpS - 14) * 5)` with `wpS = len(words) / max(1, len(sents))`. -/
def flesch (text : String) : ℚ :=
  let words := wordList text.data
  let sents := sentList text.data
  let wpS : ℚ := (words.length : ℚ) / ((max 1 sents.length : ℕ) : ℚ)
  max 0 (100 - (wpS - 14) * 5)

/-- `_gunning_fog(text)`, the built-in approximate fallback:
`0.4 * (wpS + pct_complex)` where `pct_complex` is the percentage of words
of length at least 3. -/
def gunningFog (text : String) : ℚ :=
  let words := wordList text.data
  let sents := sentList text.data
  let complexW := words.countP (fun w => decide (3 ≤ w.length))
  let wpS : ℚ := (words.length : ℚ) / ((max 1 sents.length : ℕ) : ℚ)
  let pctComplex : ℚ := ((complexW : ℚ) / ((max 1 words.length : ℕ) : ℚ)) * 100
  0.4 * (wpS + pctComplex)

/-- `score_sop_pdf_metrics(text)`: the raw metric values of a text.  The
`text_lc = text or ""` guard is the identity here because Lean strings are
never null. -/
def score_sop_pdf_metrics (text : String) : MetricName → ℚ
  | .Structure =>
    normalizeFraction
      (structure_sections.countP (fun sec => wwSearch sec text))
      structure_sections.length
  | .RegulatoryCompliance =>
    normalizeFraction
      (regulatory_terms.countP (fun term => lcSubstring term.data text.data))
      regulatory_terms.length
  | .SafetyRiskCoverage =>
    normalizeFraction
      (safety_terms.countP (fun term => lcSubstring term.data text.data))
      safety_terms.length
  | .ComplianceKeywordsCoverage =>
    normalizeFraction
      (compliance_terms.countP (fun term => lcSubstring term.data text.data))
      compliance_terms.length
  | .TraceabilityVersionControl => min 1 ((traceHits text.data : ℚ) / 2)
  | .TechnicalAccuracy =>
    -- `technical = comp_cov` (explicit alias in the source)
    normalizeFraction
      (compliance_terms.countP (fun term => lcSubstring term.data text.data))
      compliance_terms.length
  | .FleschReadingEase => flesch text
  | .GunningFogIndex => gunningFog text
  | .AvgSentenceLength =>
    if (sentList text.data).length ≠ 0 then
      ((wordList text.data).length : ℚ) /
        ((max 1 (sentList text.data).length : ℕ) : ℚ)
    else 0
  | .LongSentencesCount =>
    ((sentList text.data).countP
      (fun s => decide (25 < (runs (fun c => !c.isWhitespace) s).length)) : ℚ)
  | .PassiveVoiceCount => (passiveCount text.data : ℚ)
  | .BulletNumberingUsage => min ((bulletCount text.data : ℚ) / 5) 1
  | .AllCapsSectionCount => (allCapsCount text.data : ℚ)

/-- Round-half-to-even on rationals, the rounding used by Python `round`. -/
def roundHalfEven (q : ℚ) : ℤ :=
  let f := ⌊q⌋
  let r := q - (f : ℚ)
  if r < 1 / 2 then f
  else if 1 / 2 < r then f + 1
  else if f % 2 = 0 then f else f + 1

/-- Python `round(q, n)` for `n` decimal places. -/
def roundTo (n : ℕ) (q : ℚ) : ℚ := ((roundHalfEven (q * 10 ^ n) : ℤ) : ℚ) / 10 ^ n

/-- One normalized sub-score of `build_pdf_matrix`:
`norm[k] = _score_from_range(k, raw[k])`. -/
def normScore (text : String) (m : MetricName) : ℚ :=
  scoreFromRange m (score_sop_pdf_metrics text m)

/-- One weighted contribution of `build_pdf_matrix`:
`weighted[k] = round(norm[k] * weights_pdf[k], 4)`. -/
def weightedScore (text : String) (m : MetricName) : ℚ :=
  roundTo 4 (normScore text m * weights_pdf m)

/-- The aggregate of `build_pdf_matrix`:
`total = round(sum(weighted.values()), 2)`. -/
def totalScore (text : String) : ℚ :=
  roundTo 2 ((metricNames.map (weightedScore text)).sum)

/-- Terminal states of `generate_optimized_sop`'s optimization loop (§4.4 of
the design): success inside the loop, round budget exhausted, or a failed
rewrite (the `break`). -/
inductive Status where
  | Met
  | RoundsExhausted
  | RewriteFailed
deriving DecidableEq

/-- One entry of the `logs` list, by the string appended in the source:
`round i fre gfi` is `f"Round {i}: FRE=…, GFI=…"`, `success` is
`"✅ SOP meets readability targets."`, `rewriting` is
`"⚠️ Readability below threshold, rewriting…"`, `rewriteFailed msg` is
`f"⚠️ Rewrite failed: {msg}"`, and `maxRounds` is
`"⚠️ Max optimization rounds reached."`. -/
inductive LogEntry where
  | round (i : ℕ) (fre gfi : ℚ)
  | success
  | rewriting
  | rewriteFailed (msg : String)
  | maxRounds
deriving DecidableEq

/-- Python truthiness of an `Optional[str]`: `None` and `""` are falsy. -/
def strTruthy : Option String → Bool
  | none => false
  | some s => !s.isEmpty

/-- Python `a or b` for an `Optional[str]` `a` and string default `b`. -/
def pyOrStr (a : Option String) (b : String) : String :=
  match a with
  | some s => if s.isEmpty then b else s
  | none => b

/-- Result of the optimization loop: final text, terminal state, finished
log, and the number of calls made to the rewrite capability. -/
structure LoopOut where
  text : String
  status : Status
  logs : List LogEntry
  rewriteCalls : ℕ
deriving DecidableEq

/-- The `for i in range(max_rounds)` loop of `generate_optimized_sop`,
with its two collaborators injected as capabilities (§6 of the design):
`scores` is `readability_scores` and `rewrite` is
`_rewrite_for_readability`, which the loop consults only on the current
text; `rewrite` additionally receives the index of the call so that an
arbitrary (nondeterministic) external generator can be represented.
Arguments: rounds remaining, 0-based round index `i`, rewrite calls made so
far, current text, log so far.  Each round scores the text and logs the
round; on meeting both targets it returns `Met`; otherwise it calls
`rewrite`, terminating with `RewriteFailed` if the call errors or returns
an empty text (the `break`, which falls through to the final
`"Max optimization rounds reached."` append), and otherwise continuing with
the rewritten text.  Exhausting the budget returns `RoundsExhausted`. -/
def optLoop (scores : String → ℚ × ℚ)
    (rewrite : ℕ → String → Option String × Option String) :
    ℕ → ℕ → ℕ → String → List LogEntry → LoopOut
  | 0, _, calls, sop, logs => ⟨sop, .RoundsExhausted, logs ++ [.maxRounds], calls⟩
  | n + 1, i, calls, sop, logs =>
    let fre := (scores sop).1
    let gfi := (scores sop).2
    let logs1 := logs ++ [.round (i + 1) fre gfi]
    if fre ≥ 60 ∧ gfi ≤ 12 then ⟨sop, .Met, logs1 ++ [.success], calls⟩
    else
      let logs2 := logs1 ++ [.rewriting]
      let rw := (rewrite calls sop).1
      let rerr := (rewrite calls sop).2
      if strTruthy rerr || !strTruthy rw then
        ⟨sop, .RewriteFailed,
          logs2 ++ [.rewriteFailed (pyOrStr rerr "unknown error"), .maxRounds],
          calls + 1⟩
      else optLoop scores rewrite n (i + 1) (calls + 1) (rw.getD "") logs2

/-- `generate_optimized_sop(topic, max_rounds)` with its collaborators
injected: `generate` is the one result of `gpt_generate_full_sop(topic)`
(the single call to the draft capability), after which the loop runs.  If
the draft errors or is empty, the function returns a null text and the error
(`err or "Failed to draft SOP"`); otherwise it returns the loop's final text
with no error.  The returned triple `(sop_text, err, logs)` mirrors the
source; the loop's terminal state and call count ride along in `LoopOut`. -/
def generate_optimized_sop (scores : String → ℚ × ℚ)
    (generate : Option String × Option String)
    (rewrite : ℕ → String → Option String × Option String)
    (maxRounds : ℕ) : Option String × Option String × List LogEntry :=
  if strTruthy generate.2 || !strTruthy generate.1 then
    (none, some (pyOrStr generate.2 "Failed to draft SOP"), [])
  else
    let out := optLoop scores rewrite maxRounds 0 0 (generate.1.getD "") []
    (some out.text, none, out.logs)

/-- Is a log entry a per-round record (`f"Round {i}: …"`)? -/
def isRoundEntry : LogEntry → Bool
  | .round _ _ _ => true
  | _ => false

/-- Is a log entry a rewrite-failure note (`f"⚠️ Rewrite failed: …"`)? -/
def isFailNote : LogEntry → Bool
  | .rewriteFailed _ => true
  | _ => false

theorem strTruthy_getD (o : Option String) (h : strTruthy o = true) :
    o.getD "" ≠ "" := by
  cases o with
  | none => exact absurd h (by decide)
  | some s =>
    intro heq
    rw [Option.getD_some] at heq
    rw [heq] at h
    exact absurd h (by decide)

theorem optLoop_calls_le (scores : String → ℚ × ℚ)
    (rewrite : ℕ → String → Option String × Option String) :
    ∀ (n i calls : ℕ) (sop : String) (logs : List LogEntry),
      (optLoop scores rewrite n i calls sop logs).rewriteCalls ≤ calls + n := by
  intro n
  induction n with
  | zero => intro i calls sop logs; exact Nat.le_add_right _ _
  | succ n ih =>
    intro i calls sop logs
    simp only [optLoop]
    split_ifs with h1 h2
    · exact Nat.le_add_right _ _
    · exact Nat.add_le_add_left (Nat.succ_le_succ (Nat.zero_le n)) calls
    · exact le_trans (ih _ _ _ _) (by omega)

theorem optLoop_text_ne_empty (scores : String → ℚ × ℚ)
    (rewrite : ℕ → String → Option String × Option String) :
    ∀ (n i calls : ℕ) (sop : String) (logs : List LogEntry), sop ≠ "" →
      (optLoop scores rewrite n i calls sop logs).text ≠ "" := by
  intro n
  induction n with
  | zero => intro i calls sop logs h; exact h
  | succ n ih =>
    intro i calls sop logs h
    simp only [optLoop]
    split_ifs with h1 h2
    · exact h
    · exact h
    · apply ih
      have h3 : strTruthy (rewrite calls sop).1 = true := by
        simp only [Bool.or_eq_true, Bool.not_eq_true'] at h2
        push_neg at h2
        cases h4 : strTruthy (rewrite calls sop).1 with
        | false => exact absurd h4 h2.2
        | true => rfl
      exact strTruthy_getD _ h3

/-- Claim C2: for every initial text, every injected rewrite capability, and
every positive round budget, the optimization loop makes at most
`maxRounds` rewrite calls — so at most `maxRounds + 1` combined calls to the
generate and rewrite capabilities, the draft being the single generate
call — and its terminal status is one of `Met`, `RoundsExhausted`,
`RewriteFailed`. -/
theorem c2_loop_bound (scores : String → ℚ × ℚ)
    (rewrite : ℕ → String → Option String × Option String)
    (initialText : String) (maxRounds : ℕ) (hpos : 0 < maxRounds) :
    (optLoop scores rewrite maxRounds 0 0 initialText []).rewriteCalls + 1 ≤
        maxRounds + 1 ∧
      ((optLoop scores rewrite maxRounds 0 0 initialText []).status = .Met ∨
        (optLoop scores rewrite maxRounds 0 0 initialText []).status =
          .RoundsExhausted ∨
        (optLoop scores rewrite maxRounds 0 0 initialText []).status =
          .RewriteFailed) := by
  refine ⟨?_, ?_⟩
  · have := optLoop_calls_le scores rewrite maxRounds 0 0 initialText []
    omega
  · cases (optLoop scores rewrite maxRounds 0 0 initialText []).status with
    | Met => exact Or.inl rfl
    | RoundsExhausted => exact Or.inr (Or.inl rfl)
    | RewriteFailed => exact Or.inr (Or.inr rfl)

/-- Witness for C2 at a concrete capability and budget. -/
theorem c2_loop_bound_witness :
    0 < 3 ∧
      ((optLoop (fun _ => ((0 : ℚ), (100 : ℚ)))
            (fun _ _ => (none, none)) 3 0 0 "draft" []).rewriteCalls + 1 ≤ 3 + 1 ∧
        ((optLoop (fun _ => ((0 : ℚ), (100 : ℚ)))
            (fun _ _ => (none, none)) 3 0 0 "draft" []).status = .Met ∨
          (optLoop (fun _ => ((0 : ℚ), (100 : ℚ)))
            (fun _ _ => (none, none)) 3 0 0 "draft" []).status = .RoundsExhausted ∨
          (optLoop (fun _ => ((0 : ℚ), (100 : ℚ)))
            (fun _ _ => (none, none)) 3 0 0 "draft" []).status = .RewriteFailed)) :=
  ⟨by decide,
    c2_loop_bound (fun _ => ((0 : ℚ), (100 : ℚ))) (fun _ _ => (none, none))
      "draft" 3 (by decide)⟩

/-- Claim C3: if the readability scalars observed at a round satisfy
`ease ≥ 60` and `fog ≤ 12`, the loop stops at that round with status `Met`,
returns the current text unchanged, logs the round and the success note, and
makes no rewrite call at or after that round (the call count is unchanged). -/
theorem c3_met_stops (scores : String → ℚ × ℚ)
    (rewrite : ℕ → String → Option String × Option String)
    (n i calls : ℕ) (sop : String) (logs : List LogEntry) (fre gfi : ℚ)
    (hs : scores sop = (fre, gfi)) (h1 : fre ≥ 60) (h2 : gfi ≤ 12) :
    optLoop scores rewrite (n + 1) i calls sop logs =
      ⟨sop, .Met, logs ++ [.round (i + 1) fre gfi, .success], calls⟩ := by
  simp only [optLoop, hs]
  rw [if_pos ⟨h1, h2⟩]
  simp

/-- Witness for C3 at a concrete scorer whose scalars meet both targets. -/
theorem c3_met_stops_witness :
    (65 : ℚ) ≥ 60 ∧ (10 : ℚ) ≤ 12 ∧
      optLoop (fun _ => ((65 : ℚ), (10 : ℚ))) (fun _ _ => (none, none))
          (2 + 1) 0 0 "t" [] =
        ⟨"t", .Met, [.round 1 65 10, .success], 0⟩ :=
  ⟨by decide, by decide,
    by
      have h := c3_met_stops (fun _ => ((65 : ℚ), (10 : ℚ)))
        (fun _ _ => (none, none)) 2 0 0 "t" [] 65 10 rfl (by decide) (by decide)
      simpa using h⟩

/-- Claim C4: if the rewrite capability always fails (raises, i.e. returns an
error, or returns an empty text) and the initial text does not meet the
readability targets, the loop terminates with status `RewriteFailed` after
round 1: the log holds exactly one round entry and a failure note, the
returned text is the initial text, and exactly one rewrite call was made. -/
theorem c4_rewrite_failed (scores : String → ℚ × ℚ)
    (rewrite : ℕ → String → Option String × Option String)
    (t0 : String) (maxRounds : ℕ)
    (hfail : ∀ k s, (strTruthy (rewrite k s).2 || !strTruthy (rewrite k s).1) = true)
    (hnot : ¬ ((scores t0).1 ≥ 60 ∧ (scores t0).2 ≤ 12))
    (hpos : 0 < maxRounds) :
    (optLoop scores rewrite maxRounds 0 0 t0 []).status = .RewriteFailed ∧
      (optLoop scores rewrite maxRounds 0 0 t0 []).text = t0 ∧
      (optLoop scores rewrite maxRounds 0 0 t0 []).logs.countP isRoundEntry = 1 ∧
      (optLoop scores rewrite maxRounds 0 0 t0 []).logs.countP isFailNote = 1 ∧
      (optLoop scores rewrite maxRounds 0 0 t0 []).rewriteCalls = 1 := by
  obtain ⟨n, rfl⟩ : ∃ n, maxRounds = n + 1 := ⟨maxRounds - 1, by omega⟩
  simp only [optLoop]
  rw [if_neg hnot]
  simp [hfail 0 t0, List.countP, List.countP.go, isRoundEntry, isFailNote]

/-- Witness for C4 at a rewrite capability that always errors. -/
theorem c4_rewrite_failed_witness :
    (strTruthy (some "boom") || !strTruthy (none : Option String)) = true ∧
      ¬ ((0 : ℚ) ≥ 60 ∧ (100 : ℚ) ≤ 12) ∧ 0 < 3 ∧
      (optLoop (fun _ => ((0 : ℚ), (100 : ℚ)))
          (fun _ _ => (none, some "boom")) 3 0 0 "draft" []).status =
        .RewriteFailed ∧
      (optLoop (fun _ => ((0 : ℚ), (100 : ℚ)))
          (fun _ _ => (none, some "boom")) 3 0 0 "draft" []).text = "draft" ∧
      (optLoop (fun _ => ((0 : ℚ), (100 : ℚ)))
          (fun _ _ => (none, some "boom")) 3 0 0 "draft"
          []).logs.countP isRoundEntry = 1 ∧
      (optLoop (fun _ => ((0 : ℚ), (100 : ℚ)))
          (fun _ _ => (none, some "boom")) 3 0 0 "draft"
          []).logs.countP isFailNote = 1 ∧
      (optLoop (fun _ => ((0 : ℚ), (100 : ℚ)))
          (fun _ _ => (none, some "boom")) 3 0 0 "draft" []).rewriteCalls = 1 := by
  have h := c4_rewrite_failed (fun _ => ((0 : ℚ), (100 : ℚ)))
    (fun _ _ => (none, some "boom")) "draft" 3 (fun _ _ => rfl) (by decide)
    (by decide)
  exact ⟨rfl, by decide, by decide, h.1, h.2.1, h.2.2.1, h.2.2.2.1, h.2.2.2.2⟩

/-- Claim C5 as stated is false: with a rewrite capability all of whose
outputs score ease 65 and fog 10, a positive budget of one round, and an
initial text that misses the targets, the loop ends `RoundsExhausted`, not
`Met` — the single round is spent scoring the initial text, and the improved
rewritten text is never scored. -/
theorem c5_counterexample :
    (∀ (k : ℕ) (s : String),
        strTruthy ((fun (_ : ℕ) (_ : String) =>
            (some "g", (none : Option String))) k s).2 = false ∧
        strTruthy ((fun (_ : ℕ) (_ : String) =>
            (some "g", (none : Option String))) k s).1 = true ∧
        (fun t => if t = "g" then ((65 : ℚ), (10 : ℚ)) else (0, 100))
            (((fun (_ : ℕ) (_ : String) =>
              (some "g", (none : Option String))) k s).1.getD "") = (65, 10)) ∧
      0 < 1 ∧
      (optLoop (fun t => if t = "g" then ((65 : ℚ), (10 : ℚ)) else (0, 100))
          (fun _ _ => (some "g", none)) 1 0 0 "b" []).status ≠ .Met ∧
      (optLoop (fun t => if t = "g" then ((65 : ℚ), (10 : ℚ)) else (0, 100))
          (fun _ _ => (some "g", none)) 1 0 0 "b" []).status =
        .RoundsExhausted :=
  ⟨fun _ _ => ⟨rfl, rfl, rfl⟩, by decide, by decide, by decide⟩

/-- Claim C5, amended: if every output of the rewrite capability scores
ease 65 and fog 10 (and the rewrite never errors), then for every
`maxRounds ≥ 2` — rather than every positive `maxRounds` — the loop returns
status `Met` within the first two rounds, after at most one rewrite call.
(With `maxRounds = 1` and a non-meeting initial text the loop instead ends
`RoundsExhausted`, as the counterexample shows.) -/
theorem c5_amended (scores : String → ℚ × ℚ)
    (rewrite : ℕ → String → Option String × Option String) (t0 : String)
    (maxRounds : ℕ)
    (hgood : ∀ k s, strTruthy (rewrite k s).2 = false ∧
        strTruthy (rewrite k s).1 = true ∧
        scores ((rewrite k s).1.getD "") = (65, 10))
    (h2 : 2 ≤ maxRounds) :
    (optLoop scores rewrite maxRounds 0 0 t0 []).status = .Met ∧
      (optLoop scores rewrite maxRounds 0 0 t0 []).rewriteCalls ≤ 1 := by
  obtain ⟨n, rfl⟩ : ∃ n, maxRounds = n + 2 := ⟨maxRounds - 2, by omega⟩
  simp only [optLoop]
  by_cases hmet : (scores t0).1 ≥ 60 ∧ (scores t0).2 ≤ 12
  · rw [if_pos hmet]
    exact ⟨rfl, Nat.zero_le 1⟩
  · rw [if_neg hmet]
    obtain ⟨he, ht, hs⟩ := hgood 0 t0
    simp only [he, ht, Bool.not_true, Bool.or_false, Bool.false_or]
    rw [if_neg (by simp)]
    simp only [optLoop, hs]
    rw [if_pos (by constructor <;> norm_num)]
    exact ⟨rfl, le_refl 1⟩

/-- Witness for the amended C5 at a concrete capability and budget 2. -/
theorem c5_amended_witness :
    (∀ (k : ℕ) (s : String),
        strTruthy ((fun (_ : ℕ) (_ : String) =>
            (some "g", (none : Option String))) k s).2 = false ∧
        strTruthy ((fun (_ : ℕ) (_ : String) =>
            (some "g", (none : Option String))) k s).1 = true ∧
        (fun t => if t = "g" then ((65 : ℚ), (10 : ℚ)) else (0, 100))
            (((fun (_ : ℕ) (_ : String) =>
              (some "g", (none : Option String))) k s).1.getD "") = (65, 10)) ∧
      2 ≤ 2 ∧
      (optLoop (fun t => if t = "g" then ((65 : ℚ), (10 : ℚ)) else (0, 100))
          (fun _ _ => (some "g", none)) 2 0 0 "b" []).status = .Met ∧
      (optLoop (fun t => if t = "g" then ((65 : ℚ), (10 : ℚ)) else (0, 100))
          (fun _ _ => (some "g", none)) 2 0 0 "b" []).rewriteCalls ≤ 1 := by
  have h := c5_amended
    (fun t => if t = "g" then ((65 : ℚ), (10 : ℚ)) else (0, 100))
    (fun _ _ => (some "g", none)) "b" 2
    (fun _ _ => ⟨rfl, rfl, rfl⟩) (by decide)
  exact ⟨fun _ _ => ⟨rfl, rfl, rfl⟩, by decide, h.1, h.2⟩

/-- Claim C6 as stated is false: when the generate capability fails outright
(`gpt_generate_full_sop` returns an error), `generate_optimized_sop` returns
a null text rather than a usable one — the caller receives `None` plus an
error message. -/
theorem c6_counterexample :
    (generate_optimized_sop (fun _ => (0, 0)) (none, some "generator down")
        (fun _ _ => (none, none)) 3).1 = none ∧
      (generate_optimized_sop (fun _ => (0, 0)) (none, some "generator down")
        (fun _ _ => (none, none)) 3).2.1 = some "generator down" := by
  decide

/-- Claim C6, amended: the operation always terminates (it is a total
function of its injected capabilities) and never propagates a failure;
when the initial draft fails (error or empty draft) it returns a null text
together with a non-empty error message, and otherwise it returns a
non-empty text with no error. -/
theorem c6_amended (scores : String → ℚ × ℚ)
    (generate : Option String × Option String)
    (rewrite : ℕ → String → Option String × Option String) (maxRounds : ℕ) :
    ((generate_optimized_sop scores generate rewrite maxRounds).1 = none ∧
      ∃ e, (generate_optimized_sop scores generate rewrite maxRounds).2.1 =
          some e ∧ e ≠ "") ∨
    (∃ s, (generate_optimized_sop scores generate rewrite maxRounds).1 =
        some s ∧ s ≠ "" ∧
      (generate_optimized_sop scores generate rewrite maxRounds).2.1 = none) := by
  by_cases hg : (strTruthy generate.2 || !strTruthy generate.1) = true
  · left
    unfold generate_optimized_sop
    rw [if_pos hg]
    refine ⟨rfl, pyOrStr generate.2 "Failed to draft SOP", rfl, ?_⟩
    cases h : generate.2 with
    | none => simp [pyOrStr, h]
    | some e =>
      simp only [pyOrStr, h]
      split_ifs with he
      · simp
      · intro hc
        rw [hc] at he
        exact he rfl
  · right
    unfold generate_optimized_sop
    rw [if_neg hg]
    refine ⟨_, rfl, ?_, rfl⟩
    apply optLoop_text_ne_empty
    apply strTruthy_getD
    simp only [Bool.or_eq_true, Bool.not_eq_true'] at hg
    push_neg at hg
    cases h4 : strTruthy generate.1 with
    | false => exact absurd h4 hg.2
    | true => rfl

/-- Modelled from the spec: the Score Normalizer's per-metric piecewise rule
as §4.3 words it — metrics with `(good, warn) = (1, 0.5)` clamp the raw
value to `[0,1]`; the remaining higher-is-better metric (Flesch, good 60,
warn 40) maps to 1 at or above good, 0 at or below warn, and interpolates
linearly in between; the lower-is-better metrics map to 1 at or below good,
0 at or above warn, and interpolate `1 − (value−good)/(warn−good)` between. -/
def specSubScore (m : MetricName) (v : ℚ) : ℚ :=
  match m with
  | .Structure | .RegulatoryCompliance | .SafetyRiskCoverage
  | .ComplianceKeywordsCoverage | .TraceabilityVersionControl
  | .TechnicalAccuracy | .BulletNumberingUsage => max 0 (min 1 v)
  | .FleschReadingEase =>
    if v ≥ 60 then 1 else if v ≤ 40 then 0 else (v - 40) / (60 - 40)
  | .GunningFogIndex =>
    if v ≤ 12 then 1 else if v ≥ 15 then 0 else 1 - (v - 12) / (15 - 12)
  | .AvgSentenceLength =>
    if v ≤ 20 then 1 else if v ≥ 25 then 0 else 1 - (v - 20) / (25 - 20)
  | .LongSentencesCount =>
    if v ≤ 5 then 1 else if v ≥ 10 then 0 else 1 - (v - 5) / (10 - 5)
  | .PassiveVoiceCount =>
    if v ≤ 5 then 1 else if v ≥ 10 then 0 else 1 - (v - 5) / (10 - 5)
  | .AllCapsSectionCount =>
    if v ≤ 0 then 1 else if v ≥ 2 then 0 else 1 - (v - 0) / (2 - 0)

theorem scoreFromRange_eq_spec (m : MetricName) (v : ℚ) :
    scoreFromRange m v = specSubScore m v := by
  cases m <;>
    simp [scoreFromRange, specSubScore, ranges_pdf] <;>
    norm_num

/-- Claim C8: the implemented normalizer `_score_from_range` coincides, for
every metric and every raw value, with the spec's piecewise definition. -/
theorem c8_normalizer_matches_spec :
    ∀ (m : MetricName) (v : ℚ), scoreFromRange m v = specSubScore m v :=
  scoreFromRange_eq_spec

theorem clamp_bounds (v : ℚ) : 0 ≤ max 0 (min 1 v) ∧ max 0 (min 1 v) ≤ 1 :=
  ⟨le_max_left 0 _, max_le (by norm_num) (min_le_left 1 v)⟩

theorem interpHigh_bounds (g w v : ℚ) (hwg : w < g) (h1 : ¬ v ≥ g)
    (h2 : ¬ v ≤ w) : 0 ≤ (v - w) / (g - w) ∧ (v - w) / (g - w) ≤ 1 := by
  push_neg at h1 h2
  constructor
  · apply div_nonneg <;> linarith
  · rw [div_le_one (by linarith)]
    linarith

theorem interpLow_bounds (g w v : ℚ) (hgw : g < w) (h1 : ¬ v ≤ g)
    (h2 : ¬ v ≥ w) :
    0 ≤ 1 - (v - g) / (w - g) ∧ 1 - (v - g) / (w - g) ≤ 1 := by
  push_neg at h1 h2
  constructor
  · rw [sub_nonneg, div_le_one (by linarith)]
    linarith
  · rw [sub_le_self_iff]
    apply div_nonneg <;> linarith

theorem specSubScore_bounds (m : MetricName) (v : ℚ) :
    0 ≤ specSubScore m v ∧ specSubScore m v ≤ 1 := by
  cases m with
  | FleschReadingEase =>
    simp only [specSubScore]
    split_ifs with h1 h2
    · norm_num
    · norm_num
    · exact interpHigh_bounds 60 40 v (by norm_num) h1 h2
  | GunningFogIndex =>
    simp only [specSubScore]
    split_ifs with h1 h2
    · norm_num
    · norm_num
    · exact interpLow_bounds 12 15 v (by norm_num) h1 h2
  | AvgSentenceLength =>
    simp only [specSubScore]
    split_ifs with h1 h2
    · norm_num
    · norm_num
    · exact interpLow_bounds 20 25 v (by norm_num) h1 h2
  | LongSentencesCount =>
    simp only [specSubScore]
    split_ifs with h1 h2
    · norm_num
    · norm_num
    · exact interpLow_bounds 5 10 v (by norm_num) h1 h2
  | PassiveVoiceCount =>
    simp only [specSubScore]
    split_ifs with h1 h2
    · norm_num
    · norm_num
    · exact interpLow_bounds 5 10 v (by norm_num) h1 h2
  | AllCapsSectionCount =>
    simp only [specSubScore]
    split_ifs with h1 h2
    · norm_num
    · norm_num
    · exact interpLow_bounds 0 2 v (by norm_num) h1 h2
  | Structure => exact clamp_bounds v
  | RegulatoryCompliance => exact clamp_bounds v
  | SafetyRiskCoverage => exact clamp_bounds v
  | ComplianceKeywordsCoverage => exact clamp_bounds v
  | TraceabilityVersionControl => exact clamp_bounds v
  | TechnicalAccuracy => exact clamp_bounds v
  | BulletNumberingUsage => exact clamp_bounds v

theorem scoreFromRange_bounds (m : MetricName) (v : ℚ) :
    0 ≤ scoreFromRange m v ∧ scoreFromRange m v ≤ 1 := by
  rw [scoreFromRange_eq_spec]
  exact specSubScore_bounds m v

theorem roundHalfEven_nonneg (q : ℚ) (h : 0 ≤ q) : 0 ≤ roundHalfEven q := by
  have hf : (0 : ℤ) ≤ ⌊q⌋ := Int.le_floor.mpr (by exact_mod_cast h)
  simp only [roundHalfEven]
  split_ifs <;> omega

theorem roundHalfEven_le (q : ℚ) (M : ℤ) (h : q ≤ M) : roundHalfEven q ≤ M := by
  have hf : ⌊q⌋ ≤ M := by
    calc ⌊q⌋ ≤ ⌊(M : ℚ)⌋ := Int.floor_le_floor h
    _ = M := Int.floor_intCast M
  simp only [roundHalfEven]
  split_ifs with h1 h2 h3
  · exact hf
  · by_contra hc
    push_neg at hc
    have hfm : ⌊q⌋ = M := by omega
    rw [hfm] at h2
    have hq : (M : ℚ) + 1 / 2 < q := by linarith
    linarith
  · exact hf
  · by_contra hc
    push_neg at hc
    have hfm : ⌊q⌋ = M := by omega
    rw [hfm] at h1
    have hq : (M : ℚ) + 1 / 2 ≤ q := by linarith
    linarith

theorem roundTo_nonneg (n : ℕ) (q : ℚ) (h : 0 ≤ q) : 0 ≤ roundTo n q := by
  unfold roundTo
  apply div_nonneg _ (by positivity)
  exact_mod_cast roundHalfEven_nonneg _ (mul_nonneg h (by positivity))

theorem roundTo_le_of_int (n : ℕ) (B : ℚ) (z : ℤ) (hz : B * 10 ^ n = (z : ℚ))
    (q : ℚ) (h : q ≤ B) : roundTo n q ≤ B := by
  unfold roundTo
  rw [div_le_iff₀ (by positivity)]
  have hpow : (0 : ℚ) < 10 ^ n := by positivity
  have h1 : q * 10 ^ n ≤ (z : ℚ) := by
    rw [← hz]
    nlinarith
  have h2 := roundHalfEven_le (q * 10 ^ n) z (by exact_mod_cast h1)
  calc ((roundHalfEven (q * 10 ^ n) : ℤ) : ℚ) ≤ (z : ℚ) := by exact_mod_cast h2
    _ = B * 10 ^ n := hz.symm

theorem weightedScore_bounds (t : String) (m : MetricName) :
    0 ≤ weightedScore t m ∧ weightedScore t m ≤ weights_pdf m := by
  obtain ⟨h0, h1⟩ := scoreFromRange_bounds m (score_sop_pdf_metrics t m)
  have hw : (0 : ℚ) ≤ weights_pdf m := by cases m <;> norm_num [weights_pdf]
  have hmul0 : 0 ≤ normScore t m * weights_pdf m := mul_nonneg h0 hw
  have hmul1 : normScore t m * weights_pdf m ≤ weights_pdf m := by
    have : normScore t m * weights_pdf m ≤ 1 * weights_pdf m :=
      mul_le_mul_of_nonneg_right h1 hw
    linarith
  refine ⟨roundTo_nonneg 4 _ hmul0, ?_⟩
  cases m
  case Structure =>
    exact roundTo_le_of_int 4 _ 100000 (by norm_num [weights_pdf]) _ hmul1
  case RegulatoryCompliance =>
    exact roundTo_le_of_int 4 _ 150000 (by norm_num [weights_pdf]) _ hmul1
  case SafetyRiskCoverage =>
    exact roundTo_le_of_int 4 _ 100000 (by norm_num [weights_pdf]) _ hmul1
  case ComplianceKeywordsCoverage =>
    exact roundTo_le_of_int 4 _ 100000 (by norm_num [weights_pdf]) _ hmul1
  case TraceabilityVersionControl =>
    exact roundTo_le_of_int 4 _ 100000 (by norm_num [weights_pdf]) _ hmul1
  case TechnicalAccuracy =>
    exact roundTo_le_of_int 4 _ 100000 (by norm_num [weights_pdf]) _ hmul1
  case FleschReadingEase =>
    exact roundTo_le_of_int 4 _ 50000 (by norm_num [weights_pdf]) _ hmul1
  case GunningFogIndex =>
    exact roundTo_le_of_int 4 _ 50000 (by norm_num [weights_pdf]) _ hmul1
  case AvgSentenceLength =>
    exact roundTo_le_of_int 4 _ 50000 (by norm_num [weights_pdf]) _ hmul1
  case LongSentencesCount =>
    exact roundTo_le_of_int 4 _ 50000 (by norm_num [weights_pdf]) _ hmul1
  case PassiveVoiceCount =>
    exact roundTo_le_of_int 4 _ 50000 (by norm_num [weights_pdf]) _ hmul1
  case BulletNumberingUsage =>
    exact roundTo_le_of_int 4 _ 50000 (by norm_num [weights_pdf]) _ hmul1
  case AllCapsSectionCount =>
    exact roundTo_le_of_int 4 _ 50000 (by norm_num [weights_pdf]) _ hmul1

theorem weightedSum_bounds (t : String) :
    0 ≤ (metricNames.map (weightedScore t)).sum ∧
      (metricNames.map (weightedScore t)).sum ≤ 100 := by
  have g1 := weightedScore_bounds t .Structure
  have g2 := weightedScore_bounds t .RegulatoryCompliance
  have g3 := weightedScore_bounds t .SafetyRiskCoverage
  have g4 := weightedScore_bounds t .ComplianceKeywordsCoverage
  have g5 := weightedScore_bounds t .TraceabilityVersionControl
  have g6 := weightedScore_bounds t .TechnicalAccuracy
  have g7 := weightedScore_bounds t .FleschReadingEase
  have g8 := weightedScore_bounds t .GunningFogIndex
  have g9 := weightedScore_bounds t .AvgSentenceLength
  have g10 := weightedScore_bounds t .LongSentencesCount
  have g11 := weightedScore_bounds t .PassiveVoiceCount
  have g12 := weightedScore_bounds t .BulletNumberingUsage
  have g13 := weightedScore_bounds t .AllCapsSectionCount
  norm_num [weights_pdf] at g1 g2 g3 g4 g5 g6 g7 g8 g9 g10 g11 g12 g13
  simp only [metricNames, List.map_cons, List.map_nil, List.sum_cons,
    List.sum_nil, add_zero]
  constructor
  · linarith [g1.1, g2.1, g3.1, g4.1, g5.1, g6.1, g7.1, g8.1, g9.1, g10.1,
      g11.1, g12.1, g13.1]
  · linarith [g1.2, g2.2, g3.2, g4.2, g5.2, g6.2, g7.2, g8.2, g9.2, g10.2,
      g11.2, g12.2, g13.2]

/-- Claim C7: for every input text, every normalized sub-score of the Score
Normalizer lies in `[0, 1]`, and the aggregate total of `build_pdf_matrix`
lies in `[0, 100]`. -/
theorem c7_boundedness (t : String) (m : MetricName) :
    (0 ≤ normScore t m ∧ normScore t m ≤ 1) ∧
      (0 ≤ totalScore t ∧ totalScore t ≤ 100) := by
  refine ⟨scoreFromRange_bounds m _, ?_, ?_⟩
  · exact roundTo_nonneg 2 _ (weightedSum_bounds t).1
  · exact roundTo_le_of_int 2 100 10000 (by norm_num) _ (weightedSum_bounds t).2

theorem lcStarts_length (kw : List Char) :
    ∀ u, lcStarts kw u = true → kw.length ≤ u.length := by
  induction kw with
  | nil => intro u _; exact Nat.zero_le _
  | cons k ks ih =>
    intro u h
    cases u with
    | nil => simp [lcStarts] at h
    | cons c cs =>
      simp only [lcStarts, Bool.and_eq_true] at h
      simpa using Nat.succ_le_succ (ih cs h.2)

theorem lcStarts_append (kw : List Char) :
    ∀ u v, lcStarts kw u = true → lcStarts kw (u ++ v) = true := by
  induction kw with
  | nil => intro u v _; rfl
  | cons k ks ih =>
    intro u v h
    cases u with
    | nil => simp [lcStarts] at h
    | cons c cs =>
      simp only [lcStarts, Bool.and_eq_true, List.cons_append] at h ⊢
      exact ⟨h.1, ih cs v h.2⟩

theorem boundaryAfter_append (kw u v : List Char)
    (hlen : kw.length ≤ u.length)
    (hv : ∀ c, v.head? = some c → isWordChar c = false)
    (h : boundaryAfter kw u = true) : boundaryAfter kw (u ++ v) = true := by
  unfold boundaryAfter at h ⊢
  rw [List.drop_append_of_le_length hlen]
  cases hd : u.drop kw.length with
  | nil =>
    cases v with
    | nil => rfl
    | cons c cs => simpa using hv c rfl
  | cons c cs =>
    rw [hd] at h
    simpa using h

theorem wwScan_append (kw v : List Char)
    (hv : ∀ c, v.head? = some c → isWordChar c = false) :
    ∀ (u : List Char) (pw : Bool), wwScan kw pw u = true →
      wwScan kw pw (u ++ v) = true := by
  intro u
  induction u with
  | nil => intro pw h; simp [wwScan] at h
  | cons c cs ih =>
    intro pw h
    simp only [wwScan, Bool.or_eq_true, Bool.and_eq_true] at h
    rcases h with ⟨⟨hpw, hpre⟩, hbd⟩ | hrest
    · have hlen := lcStarts_length kw (c :: cs) hpre
      simp only [List.cons_append, wwScan, Bool.or_eq_true, Bool.and_eq_true]
      exact Or.inl ⟨⟨hpw, by
        have := lcStarts_append kw (c :: cs) v hpre
        simpa using this⟩, by
        have := boundaryAfter_append kw (c :: cs) v hlen hv hbd
        simpa using this⟩
    · simp only [List.cons_append, wwScan, Bool.or_eq_true]
      exact Or.inr (ih (isWordChar c) hrest)

theorem normalizeFraction_mono (c1 c2 total : ℕ) (h : c1 ≤ c2) :
    normalizeFraction c1 total ≤ normalizeFraction c2 total := by
  unfold normalizeFraction
  split_ifs with ht
  · have hd : (0 : ℚ) < ((max 1 total : ℕ) : ℚ) := by
      have h1 : 0 < max 1 total :=
        lt_of_lt_of_le Nat.zero_lt_one (le_max_left 1 total)
      exact_mod_cast h1
    apply min_le_min le_rfl
    rw [div_le_div_iff_of_pos_right hd]
    exact_mod_cast h
  · exact le_refl 0

/-- Claim C9: appending to a text an occurrence of a structure-section
keyword not yet matched (a space, then the keyword, leaving the rest of the
text unchanged) never decreases the Structure metric's raw value: every
keyword matched before is still matched afterwards, because the junction
character is not a word character, so the count of matched sections cannot
drop. -/
theorem c9_structure_monotone (t kw : String) (hmem : kw ∈ structure_sections)
    (hnew : wwSearch kw t = false) :
    score_sop_pdf_metrics t MetricName.Structure ≤
      score_sop_pdf_metrics (t ++ " " ++ kw) MetricName.Structure := by
  simp only [score_sop_pdf_metrics]
  apply normalizeFraction_mono
  apply List.countP_mono_left
  intro sec _ hsec
  have hdata : (t ++ " " ++ kw).data = t.data ++ (' ' :: kw.data) := by
    simp [String.data_append]
  unfold wwSearch at hsec ⊢
  rw [hdata]
  apply wwScan_append sec.data (' ' :: kw.data) ?_ t.data false hsec
  intro c hc
  simp only [List.head?] at hc
  injection hc with hc
  rw [← hc]
  decide

/-- Witness for C9: a text containing no section keyword, extended with the
keyword `Purpose`. -/
theorem c9_structure_monotone_witness :
    "Purpose" ∈ structure_sections ∧ wwSearch "Purpose" "Hello" = false ∧
      score_sop_pdf_metrics "Hello" MetricName.Structure ≤
        score_sop_pdf_metrics ("Hello" ++ " " ++ "Purpose")
          MetricName.Structure :=
  ⟨by decide, by decide,
    c9_structure_monotone "Hello" "Purpose" (by decide) (by decide)⟩

theorem ws_not_word (c : Char) (h : c.isWhitespace = true) :
    isWordChar c = false := by
  simp only [Char.isWhitespace, Bool.or_eq_true, decide_eq_true_eq] at h
  rcases h with ((h | h) | h) | h <;> subst h <;> decide

theorem ws_not_sentEnd (c : Char) (h : c.isWhitespace = true) :
    isSentEnd c = false := by
  simp only [Char.isWhitespace, Bool.or_eq_true, decide_eq_true_eq] at h
  rcases h with ((h | h) | h) | h <;> subst h <;> decide

theorem runsGo_eq_nil (p : Char → Bool) :
    ∀ t, (∀ c ∈ t, p c = false) → runsGo p [] t = [] := by
  intro t
  induction t with
  | nil => intro _; rfl
  | cons c cs ih =>
    intro h
    have hc : p c = false := h c (List.mem_cons_self c cs)
    simp only [runsGo, hc, Bool.false_eq_true, if_false, List.isEmpty_nil,
      if_true]
    exact ih fun d hd => h d (List.mem_cons_of_mem c hd)

theorem splitSents_no_sep : ∀ t, (∀ c ∈ t, isSentEnd c = false) →
    splitSents t = [t] := by
  intro t
  induction t with
  | nil => intro _; rfl
  | cons c cs ih =>
    intro h
    have hc : isSentEnd c = false := h c (List.mem_cons_self c cs)
    have hrec := ih fun d hd => h d (List.mem_cons_of_mem c hd)
    simp only [splitSents, hc, Bool.false_eq_true, if_false, hrec]

theorem sentList_all_ws (t : List Char) (h : ∀ c ∈ t, c.isWhitespace = true) :
    sentList t = [] := by
  unfold sentList
  rw [splitSents_no_sep t fun c hc => ws_not_sentEnd c (h c hc)]
  have hp : (t.any fun c => !c.isWhitespace) = false := by
    rw [List.any_eq_false]
    intro c hc
    rw [h c hc]
    decide
  simp [List.filter_cons, hp]

theorem wordList_all_ws (t : List Char) (h : ∀ c ∈ t, c.isWhitespace = true) :
    wordList t = [] :=
  runsGo_eq_nil isWordChar t fun c hc => ws_not_word c (h c hc)

/-- Claim C10: the fallback Flesch ease estimator is floored at 0 but has no
upper clamp at 100.  Whenever the word count is below 14 times the sentence
count (the denominator floored at 1) — i.e. the words-per-sentence ratio is
below 14 — the estimator returns a value strictly greater than 100, and on
empty or whitespace-only text it returns exactly 170. -/
theorem c10_flesch_no_upper_clamp (t : String) :
    ((wordList t.data).length < 14 * max 1 (sentList t.data).length →
      100 < flesch t) ∧
      ((∀ c ∈ t.data, c.isWhitespace = true) → flesch t = 170) := by
  constructor
  · intro h
    unfold flesch
    have hd : (0 : ℚ) < ((max 1 (sentList t.data).length : ℕ) : ℚ) := by
      have h1 : 0 < max 1 (sentList t.data).length :=
        lt_of_lt_of_le Nat.zero_lt_one (le_max_left 1 _)
      exact_mod_cast h1
    have hq : ((wordList t.data).length : ℚ) <
        14 * ((max 1 (sentList t.data).length : ℕ) : ℚ) := by
      exact_mod_cast h
    have hwps : ((wordList t.data).length : ℚ) /
        ((max 1 (sentList t.data).length : ℕ) : ℚ) < 14 := by
      rw [div_lt_iff₀ hd]
      linarith
    have hgt : (100 : ℚ) <
        100 - (((wordList t.data).length : ℚ) /
          ((max 1 (sentList t.data).length : ℕ) : ℚ) - 14) * 5 := by
      nlinarith
    calc (100 : ℚ) < _ := hgt
      _ ≤ _ := le_max_right 0 _
  · intro h
    unfold flesch
    rw [wordList_all_ws t.data h, sentList_all_ws t.data h]
    norm_num

/-- Witness for C10 at a whitespace-only text (ratio 0 < 14; value 170). -/
theorem c10_flesch_no_upper_clamp_witness :
    (wordList " ".data).length < 14 * max 1 (sentList " ".data).length ∧
      100 < flesch " " ∧ flesch " " = 170 :=
  ⟨by decide, (c10_flesch_no_upper_clamp " ").1 (by decide),
    (c10_flesch_no_upper_clamp " ").2 (by decide)⟩

theorem raw_empty (m : MetricName) :
    score_sop_pdf_metrics "" m =
      if m = MetricName.FleschReadingEase then 170 else 0 := by
  have h1 : (wordList "".data).length = 0 := by decide
  have h2 : (sentList "".data).length = 0 := by decide
  have h3 : (wordList "".data).countP (fun w => decide (3 ≤ w.length)) = 0 := by
    decide
  have h4 : structure_sections.countP (fun sec => wwSearch sec "") = 0 := by
    decide
  have h5 : regulatory_terms.countP
      (fun term => lcSubstring term.data "".data) = 0 := by decide
  have h6 : safety_terms.countP
      (fun term => lcSubstring term.data "".data) = 0 := by decide
  have h7 : compliance_terms.countP
      (fun term => lcSubstring term.data "".data) = 0 := by decide
  have h8 : traceHits "".data = 0 := by decide
  have h9 : passiveCount "".data = 0 := by decide
  have h10 : bulletCount "".data = 0 := by decide
  have h11 : allCapsCount "".data = 0 := by decide
  have h12 : (sentList "".data).countP
      (fun s => decide (25 < (runs (fun c => !c.isWhitespace) s).length)) = 0 := by
    decide
  cases m <;>
    first
      | (rw [if_pos rfl]
         norm_num [score_sop_pdf_metrics, flesch, h1, h2])
      | (rw [if_neg (by decide)]
         norm_num [score_sop_pdf_metrics, flesch, gunningFog,
           normalizeFraction, h1, h2, h3, h4, h5, h6, h7, h8, h9, h10, h11,
           h12])

theorem total_empty : totalScore "" = 30 := by
  have h1 : (wordList "".data).length = 0 := by decide
  have h2 : (sentList "".data).length = 0 := by decide
  have h3 : (wordList "".data).countP (fun w => decide (3 ≤ w.length)) = 0 := by
    decide
  have h4 : structure_sections.countP (fun sec => wwSearch sec "") = 0 := by
    decide
  have h5 : regulatory_terms.countP
      (fun term => lcSubstring term.data "".data) = 0 := by decide
  have h6 : safety_terms.countP
      (fun term => lcSubstring term.data "".data) = 0 := by decide
  have h7 : compliance_terms.countP
      (fun term => lcSubstring term.data "".data) = 0 := by decide
  have h8 : traceHits "".data = 0 := by decide
  have h9 : passiveCount "".data = 0 := by decide
  have h10 : bulletCount "".data = 0 := by decide
  have h11 : allCapsCount "".data = 0 := by decide
  have h12 : (sentList "".data).countP
      (fun s => decide (25 < (runs (fun c => !c.isWhitespace) s).length)) = 0 := by
    decide
  norm_num [totalScore, metricNames, weightedScore, normScore,
    score_sop_pdf_metrics, scoreFromRange, ranges_pdf, weights_pdf, flesch,
    gunningFog, normalizeFraction, roundTo, roundHalfEven,
    h1, h2, h3, h4, h5, h6, h7, h8, h9, h10, h11, h12]

/-- Claim C1 as stated is false: on the empty string the raw Flesch Reading
Ease metric is 170 (the fallback estimator's value on empty text), not 0,
and the aggregate total score is 30 (the five lower-is-better metrics and
the readability metrics normalize to 1 at their degenerate raw values), not
0. -/
theorem c1_counterexample :
    score_sop_pdf_metrics "" MetricName.FleschReadingEase = 170 ∧
      (170 : ℚ) ≠ 0 ∧ totalScore "" = 30 ∧ (30 : ℚ) ≠ 0 := by
  refine ⟨?_, by norm_num, total_empty, by norm_num⟩
  have h := raw_empty MetricName.FleschReadingEase
  simpa using h

/-- Claim C1, amended: scoring the empty string yields every raw metric 0
except Flesch Reading Ease, which is 170, and an aggregate total score of
30 rather than 0. -/
theorem c1_amended :
    (∀ m : MetricName, score_sop_pdf_metrics "" m =
        if m = MetricName.FleschReadingEase then 170 else 0) ∧
      totalScore "" = 30 :=
  ⟨raw_empty, total_empty⟩
